import Mathlib

/-!
Verification development for the dme-sync chunk-embed-index pipeline
(`src/indexer/chunk_embed_index.py`).

The pipeline is shallowly embedded as pure Lean functions:

* `simple_tokenize`, `chunk_text` model the hierarchical chunker;
* `get_embedding` models the embedder, parametrised by the embedding
  service (`svc`), whose outcome is an `Except`;
* `midFlushAux` / `finalFlushAux` model the two retry loops around the
  Pinecone upsert (mid-stream batch flush and final remainder flush),
  parametrised by an oracle giving the outcome of each upsert attempt;
* `process_and_upsert` models one full run of the orchestrator,
  parametrised by the record set, the configuration (the environment
  variables the script reads), the embedding service, the hash used for
  chunk ids (instantiated with `sha256hex` in deployment; the run logic
  never inspects it), the upsert oracle and the checkpoint store.

Observable effects are returned as data: `upserted` collects the ids of
the vectors successfully upserted to the vector index, `saves` the
checkpoint values written to the checkpoint store.  A raised exception
that escapes `process_and_upsert` is modelled as `Except.error`.
-/

namespace DmeSync

/-- EMBEDDING_DIMENSION = 1536 (chunk_embed_index.py line 34). -/
def EMBEDDING_DIMENSION : Nat := 1536

/-- BATCH_SIZE = 200 (line 43). -/
def BATCH_SIZE : Nat := 200

/-- Both upsert retry loops run `for attempt in range(5)` (lines 199, 219). -/
def MAX_UPSERT_ATTEMPTS : Nat := 5

/-- The environment-derived configuration the script reads (lines 38-42).
`paragraphOverlap` is the float `CHUNK_PARAGRAPH_OVERLAP`, modelled as a
rational; the default 0.2 is exactly representable and all claims use it. -/
structure Config where
  sectionTokens : Nat
  paragraphTokens : Nat
  paragraphOverlap : ℚ
  dryRunLimit : Nat
deriving DecidableEq

/-- Defaults: CHUNK_SECTION_TOKENS=512, CHUNK_PARAGRAPH_TOKENS=128,
CHUNK_PARAGRAPH_OVERLAP=0.2, DRY_RUN_LIMIT=10.  The overlap fraction is
written `mkRat 1 5` (= 0.2) so that its `num`/`den` fields reduce. -/
def defaultConfig : Config := ⟨512, 128, mkRat 1 5, 10⟩

/-- Helper for `simple_tokenize`: walk the characters, accumulating the
current (reversed) token; whitespace ends a token, runs of whitespace and
leading/trailing whitespace produce nothing.  This is the semantics of
Python `str.split()` with no argument. -/
def splitWsAux : List Char → List Char → List String
  | [], acc => if acc = [] then [] else [String.mk acc.reverse]
  | c :: rest, acc =>
    if c.isWhitespace then
      (if acc = [] then [] else [String.mk acc.reverse]) ++ splitWsAux rest []
    else splitWsAux rest (c :: acc)

/-- `simple_tokenize` (line 63): Python `text.split()` — split on runs of
whitespace, discarding empty pieces. -/
def simple_tokenize (text : String) : List String :=
  splitWsAux text.data []

/-- The window size for a level: `chunk_size` in `chunk_text` (lines 68-72). -/
def windowFor (cfg : Config) (level : String) : Nat :=
  if level = "section" then cfg.sectionTokens else cfg.paragraphTokens

/-- The integer overlap for a level (lines 70, 73):
`int(CHUNK_PARAGRAPH_TOKENS * CHUNK_PARAGRAPH_OVERLAP)`.  The product of
the window size `P` with the fraction `f = num/den` is the exact rational
`(P * num) / den`, whose floor is the flooring integer division
`Int.fdiv (P * num) den`; Python `int()` truncation agrees with the floor
for the non-negative fractions in scope (and for the default `f = 0.2`
the floating-point computation also yields 25 for `P = 128`).
The arithmetic is phrased on `num`/`den` because Batteries marks the `ℚ`
field operations irreducible, which would block kernel evaluation. -/
def overlapFor (cfg : Config) (level : String) : Nat :=
  if level = "section" then 0
  else (Int.fdiv ((cfg.paragraphTokens : Int) * cfg.paragraphOverlap.num)
      (cfg.paragraphOverlap.den : Int)).toNat

/-- The loop increment (lines 81-84): `chunk_size - overlap` when
`overlap` is truthy, else `chunk_size`. -/
def stepFor (cfg : Config) (level : String) : Nat :=
  if overlapFor cfg level ≠ 0 then windowFor cfg level - overlapFor cfg level
  else windowFor cfg level

/-- The `while i < len(tokens)` loop of `chunk_text` (lines 74-85), phrased
on the remaining suffix `tokens[i:]`.  The fuel argument only bounds the
iteration count so the definition is total; `chunk_text` passes
`tokens.length + 1`, which is never exhausted when `step ≥ 1` (when
`step = 0` the Python loop does not terminate; no claim is in that regime). -/
def chunkLoop (size step : Nat) : Nat → List String → List String
  | 0, _ => []
  | fuel+1, rem =>
    let c := rem.take size
    if c = [] then []
    else String.intercalate " " c :: chunkLoop size step fuel (rem.drop step)

/-- `chunk_text` (lines 66-85). -/
def chunk_text (cfg : Config) (text : String) (level : String) : List String :=
  let tokens := simple_tokenize text
  chunkLoop (windowFor cfg level) (stepFor cfg level) (tokens.length + 1) tokens

/-- `get_embedding` (lines 87-96), parametrised by the embedding service:
truncate to 25000 characters, call the service, and on any failure return
the zero vector of dimension `EMBEDDING_DIMENSION`.  The function is total
(it never propagates the service failure). -/
def get_embedding (svc : String → Except String (List ℚ)) (text : String) :
    List ℚ :=
  let t := if 25000 < text.length then String.mk (text.data.take 25000) else text
  match svc t with
  | .ok v => v
  | .error _ => List.replicate EMBEDDING_DIMENSION 0

/-- `load_checkpoint` (lines 137-143): the stored `last_doc_idx`, or 0 when
the key is absent/unreadable. -/
def load_checkpoint (store : Option Nat) : Nat := store.getD 0

/-- `save_checkpoint` (lines 131-134): overwrite the key with the new index. -/
def save_checkpoint (idx : Nat) : Option Nat := some idx

/-- The outcome of one upsert attempt against the vector index:
success, an exception carrying HTTP status 429 (rate limit), or any other
exception. -/
inductive UpsertOutcome
  | ok
  | rateLimited
  | otherError
deriving DecidableEq

/-- Result of the mid-stream flush loop (lines 199-217): the upsert
succeeded after `attempts` attempts; or all `MAX_UPSERT_ATTEMPTS` attempts
were rate-limited and the loop fell through, after which line 217 clears
the batch (the batch is dropped silently); or a non-429 exception was
re-raised on the `attempts`-th attempt. -/
inductive MidFlushResult
  | flushed (attempts : Nat)
  | dropped
  | raised (attempts : Nat)
deriving DecidableEq

/-- The `for attempt in range(5)` loop of the mid-stream flush
(lines 199-216): `attempt` is the index of the next attempt, the second
argument the number of attempts left.  On success: break.  On a 429:
back off and retry.  On any other exception: re-raise (line 216). -/
def midFlushAux (oracle : Nat → UpsertOutcome) (attempt : Nat) :
    Nat → MidFlushResult
  | 0 => .dropped
  | rem+1 =>
    match oracle attempt with
    | .ok => .flushed (attempt + 1)
    | .rateLimited => midFlushAux oracle (attempt + 1) rem
    | .otherError => .raised (attempt + 1)

/-- The whole mid-stream flush retry loop, from attempt 0. -/
def midFlush (oracle : Nat → UpsertOutcome) : MidFlushResult :=
  midFlushAux oracle 0 MAX_UPSERT_ATTEMPTS

/-- Result of the final-batch flush loop (lines 219-233): the upsert
succeeded after `attempts` attempts (then the checkpoint is saved); or all
five attempts failed and the loop fell through silently — note this loop
catches every exception (line 231), not just rate limits. -/
inductive FinalFlushResult
  | flushed (attempts : Nat)
  | abandoned
deriving DecidableEq

/-- The `for attempt in range(5)` loop of the final flush (lines 219-233):
on success break; on ANY exception log it, back off, and retry. -/
def finalFlushAux (oracle : Nat → UpsertOutcome) (attempt : Nat) :
    Nat → FinalFlushResult
  | 0 => .abandoned
  | rem+1 =>
    match oracle attempt with
    | .ok => .flushed (attempt + 1)
    | _ => finalFlushAux oracle (attempt + 1) rem

/-- The whole final flush retry loop, from attempt 0. -/
def finalFlush (oracle : Nat → UpsertOutcome) : FinalFlushResult :=
  finalFlushAux oracle 0 MAX_UPSERT_ATTEMPTS

/-- A row of `kb_docs` as returned by `get_normalized_records`
(lines 113-126); the `raw` column is never read by the pipeline. -/
structure Doc where
  doc_id : String
  canonical_url : String
  entity_type : String
  text : String
deriving DecidableEq

/-- A vector queued for upsert (lines 184-195): chunk id, embedding values
and metadata. -/
structure BatchEntry where
  id : String
  values : List ℚ
  meta_doc_id : String
  meta_canonical_url : String
  meta_entity_type : String
deriving DecidableEq

/-- The batch entries produced for one document (lines 178-195):
section chunks, each re-chunked into paragraph chunks; each paragraph is
embedded and paired with `sha (doc_id + para)` as its id.  `sha` is the
hexadecimal SHA-256 digest in deployment (`sha256hex` below); the
orchestrator never inspects it. -/
def docEntries (cfg : Config) (svc : String → Except String (List ℚ))
    (sha : String → String) (doc : Doc) : List BatchEntry :=
  (chunk_text cfg doc.text "section").flatMap fun sec =>
    (chunk_text cfg sec "paragraph").map fun para =>
      { id := sha (doc.doc_id ++ para)
        values := get_embedding svc para
        meta_doc_id := doc.doc_id
        meta_canonical_url := doc.canonical_url
        meta_entity_type := doc.entity_type }

/-- The documents the `for doc_idx, doc in enumerate(records)` loop
actually processes (lines 171-176): indices below `start_idx` are skipped
by `continue`, and when a positive limit is configured the loop breaks at
`end_idx` — for `DRY_RUN_LIMIT = 0` the caller passes
`end_idx = records.length`, so the break condition is the same filter. -/
def windowDocs (records : List Doc) (start_idx end_idx : Nat) :
    List (Nat × Doc) :=
  records.enum.filter fun p => decide (start_idx ≤ p.1 ∧ p.1 < end_idx)

/-- All batch entries the run appends, in order (lines 171-195). -/
def windowEntries (cfg : Config) (svc : String → Except String (List ℚ))
    (sha : String → String) (records : List Doc) (start_idx end_idx : Nat) :
    List BatchEntry :=
  (windowDocs records start_idx end_idx).flatMap fun p =>
    docEntries cfg svc sha p.2

/-- The orchestrator's mutable state (lines 164-166 and the S3/Pinecone
effects): the pending batch, `total_upserted`, how many flush loops were
entered so far (used to index the upsert oracle), the ids successfully
upserted to the vector index, and the checkpoint values written to S3. -/
structure RunState where
  batch : List BatchEntry
  total_upserted : Nat
  flushCount : Nat
  upserted : List String
  saves : List Nat
deriving DecidableEq

/-- State at line 164-165: empty batch, nothing upserted or saved. -/
def initState : RunState := ⟨[], 0, 0, [], []⟩

/-- One iteration of the inner loop body after a paragraph chunk is
appended (lines 191-217): append the entry; if the batch has reached
`BATCH_SIZE`, run the mid-stream flush loop.  A re-raised non-429
exception escapes `process_and_upsert`, modelled as `Except.error`. -/
def stepEntry (uOracle : Nat → Nat → UpsertOutcome) (s : RunState)
    (e : BatchEntry) : Except Unit RunState :=
  let batch := s.batch ++ [e]
  if BATCH_SIZE ≤ batch.length then
    match midFlush (uOracle s.flushCount) with
    | .flushed _ =>
        .ok { batch := []
              total_upserted := s.total_upserted + batch.length
              flushCount := s.flushCount + 1
              upserted := s.upserted ++ batch.map BatchEntry.id
              saves := s.saves }
    | .dropped =>
        .ok { batch := []
              total_upserted := s.total_upserted
              flushCount := s.flushCount + 1
              upserted := s.upserted
              saves := s.saves }
    | .raised _ => .error ()
  else .ok { s with batch := batch }

/-- The whole document/section/paragraph loop nest (lines 171-217),
folded over the flat list of entries it generates. -/
def runLoop (uOracle : Nat → Nat → UpsertOutcome)
    (entries : List BatchEntry) : Except Unit RunState :=
  entries.foldlM (stepEntry uOracle) initState

/-- The final-batch block (lines 218-233): if a remainder is pending, run
the catch-all flush loop; on success the checkpoint `end_idx - 1` is
saved (line 228); on abandonment nothing is saved and the run continues. -/
def finalStep (uOracle : Nat → Nat → UpsertOutcome) (end_idx : Nat)
    (s : RunState) : RunState :=
  if s.batch = [] then s
  else
    match finalFlush (uOracle s.flushCount) with
    | .flushed _ =>
        { batch := []
          total_upserted := s.total_upserted + s.batch.length
          flushCount := s.flushCount + 1
          upserted := s.upserted ++ s.batch.map BatchEntry.id
          saves := s.saves ++ [end_idx - 1] }
    | .abandoned => { s with flushCount := s.flushCount + 1 }

/-- What one run reports/effects (lines 218-238): the vector count,
the ids upserted to the index, the checkpoint values saved, and
`processed_docs`. -/
structure RunResult where
  total_upserted : Nat
  upserted : List String
  saves : List Nat
  processed_docs : Nat
deriving DecidableEq

/-- `end_idx` (line 168): `start_idx + DRY_RUN_LIMIT` when the limit is
positive, else the number of records. -/
def endIdxOf (records : List Doc) (cfg : Config) (store : Option Nat) : Nat :=
  if 0 < cfg.dryRunLimit then load_checkpoint store + cfg.dryRunLimit
  else records.length

/-- Decidable equality on run outcomes, so concrete runs can be evaluated
inside `decide`. -/
instance {ε α : Type} [DecidableEq ε] [DecidableEq α] :
    DecidableEq (Except ε α) := fun a b =>
  match a, b with
  | .ok x, .ok y =>
      if h : x = y then .isTrue (by rw [h]) else .isFalse (by simp [h])
  | .error x, .error y =>
      if h : x = y then .isTrue (by rw [h]) else .isFalse (by simp [h])
  | .ok _, .error _ => .isFalse (by simp)
  | .error _, .ok _ => .isFalse (by simp)

/-- One full run of `process_and_upsert` (lines 151-238), parametrised by
the records (the Postgres read), the configuration, the embedding service,
the chunk-id hash, the per-flush upsert oracle (`uOracle f a` is the
outcome of attempt `a` of the `f`-th flush loop entered) and the
checkpoint store contents.  `Except.error` models an exception escaping
the function (which fails the run). -/
def process_and_upsert (records : List Doc) (cfg : Config)
    (svc : String → Except String (List ℚ)) (sha : String → String)
    (uOracle : Nat → Nat → UpsertOutcome) (store : Option Nat) :
    Except Unit RunResult :=
  let start_idx := load_checkpoint store
  let end_idx := endIdxOf records cfg store
  let entries := windowEntries cfg svc sha records start_idx end_idx
  (runLoop uOracle entries).map fun s =>
    let s2 := finalStep uOracle end_idx s
    ⟨s2.total_upserted, s2.upserted, s2.saves,
      (windowDocs records start_idx end_idx).length⟩

/-!
SHA-256, as used on line 184:
`hashlib.sha256((doc["doc_id"] + para).encode()).hexdigest()`.
Implemented over `Nat` with explicit `% 2^32`, following FIPS 180-4.
-/

namespace SHA256

/-- Two to the thirty-second, the word modulus. -/
def M32 : Nat := 4294967296

/-- Addition modulo 2^32. -/
def add32 (a b : Nat) : Nat := (a + b) % M32

/-- Right rotation of a 32-bit word. -/
def rotr (n x : Nat) : Nat := ((x >>> n) ||| (x <<< (32 - n))) % M32

/-- Big sigma-0: rotr 2 xor rotr 13 xor rotr 22. -/
def bSig0 (x : Nat) : Nat := (rotr 2 x) ^^^ (rotr 13 x) ^^^ (rotr 22 x)

/-- Big sigma-1: rotr 6 xor rotr 11 xor rotr 25. -/
def bSig1 (x : Nat) : Nat := (rotr 6 x) ^^^ (rotr 11 x) ^^^ (rotr 25 x)

/-- Small sigma-0: rotr 7 xor rotr 18 xor shift 3. -/
def sSig0 (x : Nat) : Nat := (rotr 7 x) ^^^ (rotr 18 x) ^^^ (x >>> 3)

/-- Small sigma-1: rotr 17 xor rotr 19 xor shift 10. -/
def sSig1 (x : Nat) : Nat := (rotr 17 x) ^^^ (rotr 19 x) ^^^ (x >>> 10)

/-- Choose: (x and y) xor (not x and z). -/
def ch (x y z : Nat) : Nat := (x &&& y) ^^^ ((x ^^^ 4294967295) &&& z)

/-- Majority: (x and y) xor (x and z) xor (y and z). -/
def maj (x y z : Nat) : Nat := (x &&& y) ^^^ (x &&& z) ^^^ (y &&& z)

/-- The 64 round constants K0..K63 of FIPS 180-4, packed big-endian into
one integer (32 bits per constant, K0 most significant). -/
def Kpacked : Nat :=
  8399870144517823301722239222130927227141849779511242471197906795369846673996008864786532278482947930035050432913372875699354429524650716672308175015812472005008943341011247634627600705591103756174659437448007297240981034636327441933849465611186184660803773840414514428031635770391245199770927811112653141372483794982516161135727373084047811483050876080270389320947077305721183235613169389468744126235534648516788175255292025668825020963291224099932572215580391753777671218957634024159536228058522778003881673030597872562207069818177476920296259993961459554031943090626293016819766823808480230688357231269177224952050

/-- The 64 round constants, unpacked. -/
def K : List Nat :=
  (List.range 64).map fun i => (Kpacked >>> (32 * (63 - i))) &&& 4294967295

/-- The eight-word hash state. -/
structure Hash8 where
  a : Nat
  b : Nat
  c : Nat
  d : Nat
  e : Nat
  f : Nat
  g : Nat
  h : Nat
deriving DecidableEq

/-- The initial hash words H0..H7 of FIPS 180-4, packed big-endian. -/
def Hpacked : Nat :=
  47962653771679561900652889051773562940742041696833059450490514104358170316057

/-- The initial hash value, unpacked. -/
def H0 : Hash8 :=
  ⟨(Hpacked >>> 224) &&& 4294967295, (Hpacked >>> 192) &&& 4294967295,
   (Hpacked >>> 160) &&& 4294967295, (Hpacked >>> 128) &&& 4294967295,
   (Hpacked >>> 96) &&& 4294967295, (Hpacked >>> 64) &&& 4294967295,
   (Hpacked >>> 32) &&& 4294967295, Hpacked &&& 4294967295⟩

/-- One compression round with round constant `ki` and schedule word `wi`. -/
def round1 (ki wi : Nat) (s : Hash8) : Hash8 :=
  let T1 := add32 s.h (add32 (bSig1 s.e) (add32 (ch s.e s.f s.g) (add32 ki wi)))
  let T2 := add32 (bSig0 s.a) (maj s.a s.b s.c)
  ⟨add32 T1 T2, s.a, s.b, s.c, add32 s.d T1, s.e, s.f, s.g⟩

/-- UTF-8 encoding of one scalar value (Python `str.encode()`). -/
def utf8Char (c : Char) : List Nat :=
  let n := c.toNat
  if n < 0x80 then [n]
  else if n < 0x800 then
    [0xC0 ||| (n >>> 6), 0x80 ||| (n &&& 0x3F)]
  else if n < 0x10000 then
    [0xE0 ||| (n >>> 12), 0x80 ||| ((n >>> 6) &&& 0x3F), 0x80 ||| (n &&& 0x3F)]
  else
    [0xF0 ||| (n >>> 18), 0x80 ||| ((n >>> 12) &&& 0x3F),
     0x80 ||| ((n >>> 6) &&& 0x3F), 0x80 ||| (n &&& 0x3F)]

/-- UTF-8 encoding of a string as a byte list. -/
def utf8Encode (s : String) : List Nat := s.data.flatMap utf8Char

/-- Big-endian byte decomposition: `count` bytes of `v`. -/
def beBytes : Nat → Nat → List Nat
  | 0, _ => []
  | k+1, v => beBytes k (v >>> 8) ++ [v &&& 0xFF]

/-- FIPS 180-4 padding: a 0x80 byte, zeros to 56 mod 64, then the bit
length as a big-endian 64-bit quantity. -/
def pad (msg : List Nat) : List Nat :=
  let L := msg.length
  msg ++ [0x80] ++ List.replicate ((119 - (L % 64)) % 64) 0 ++ beBytes 8 (8 * L)

/-- Group bytes into big-endian 32-bit words. -/
def toWords : List Nat → List Nat
  | b0 :: b1 :: b2 :: b3 :: rest =>
      ((b0 <<< 24) ||| (b1 <<< 16) ||| (b2 <<< 8) ||| b3) :: toWords rest
  | _ => []

/-- Extend the 16-word block by `k` further schedule words. -/
def scheduleAux (w : List Nat) : Nat → List Nat
  | 0 => w
  | k+1 =>
      scheduleAux
        (w ++ [add32 (add32 (sSig1 (w.getD (w.length - 2) 0))
                  (w.getD (w.length - 7) 0))
               (add32 (sSig0 (w.getD (w.length - 15) 0))
                  (w.getD (w.length - 16) 0))]) k

/-- Compress one 64-byte block into the hash state. -/
def compressBlock (s : Hash8) (block : List Nat) : Hash8 :=
  let w := scheduleAux (toWords block) 48
  let t := (K.zip w).foldl (fun st kw => round1 kw.1 kw.2 st) s
  ⟨add32 s.a t.a, add32 s.b t.b, add32 s.c t.c, add32 s.d t.d,
   add32 s.e t.e, add32 s.f t.f, add32 s.g t.g, add32 s.h t.h⟩

/-- Split the padded message into 64-byte blocks (the fuel is the byte
count, an upper bound on the block count). -/
def blocksAux : Nat → List Nat → List (List Nat)
  | 0, _ => []
  | _+1, [] => []
  | k+1, l => l.take 64 :: blocksAux k (l.drop 64)

/-- The digest of a byte message, as eight 32-bit words. -/
def sha256words (msg : List Nat) : List Nat :=
  let padded := pad msg
  let final := (blocksAux padded.length padded).foldl compressBlock H0
  [final.a, final.b, final.c, final.d, final.e, final.f, final.g, final.h]

/-- One lowercase hexadecimal digit. -/
def hexDigit (d : Nat) : Char :=
  if d < 10 then Char.ofNat (48 + d) else Char.ofNat (87 + d)

/-- A 32-bit word as eight hexadecimal digits. -/
def wordHex (w : Nat) : String :=
  String.mk ((List.range 8).map fun i => hexDigit ((w >>> (28 - 4 * i)) &&& 15))

end SHA256

/-- Python `hashlib.sha256(s.encode()).hexdigest()`. -/
def sha256hex (s : String) : String :=
  String.join ((SHA256.sha256words (SHA256.utf8Encode s)).map SHA256.wordHex)

/-- The chunk id computed on line 184: the SHA-256 hex digest of the BARE
concatenation of `doc_id` and the paragraph text, with no separator. -/
def mkChunkId (doc_id chunk_text : String) : String :=
  sha256hex (doc_id ++ chunk_text)

/-- The vector index keyed by id: an upsert with an existing id overwrites
that id's vector (Pinecone upsert semantics). -/
def indexUpsert (index : String → Option (List ℚ)) (id : String)
    (v : List ℚ) : String → Option (List ℚ) :=
  fun q => if q = id then some v else index q

/-!
Concrete fixtures used by witnesses and counterexamples.
-/

/-- An embedding service that always fails. -/
def svcDown : String → Except String (List ℚ) := fun _ => .error "unavailable"

/-- An embedding service that succeeds with an empty vector — used where a
witness must spell out an intermediate `RunState`, so that deciding state
equality does not traverse 1536-element vectors. -/
def svcEmpty : String → Except String (List ℚ) := fun _ => .ok []

/-- A transparent stand-in for the chunk-id hash, so that run-level
counterexamples stay readable; the orchestrator theorems are proved for
every hash function. -/
def hashId : String → String := fun s => s

/-- An upsert oracle whose every attempt succeeds. -/
def okOracle : Nat → Nat → UpsertOutcome := fun _ _ => .ok

/-- An upsert oracle that rate-limits every attempt. -/
def rlOracle : Nat → Nat → UpsertOutcome := fun _ _ => .rateLimited

/-- An upsert oracle that fails every attempt with a non-429 error. -/
def errOracle : Nat → Nat → UpsertOutcome := fun _ _ => .otherError

/-- An upsert oracle that rate-limits all five attempts of the first flush
and succeeds afterwards. -/
def dropFirstOracle : Nat → Nat → UpsertOutcome :=
  fun f _ => if f = 0 then .rateLimited else .ok

/-- Attempt oracle for a single flush: two rate limits, then success. -/
def twoRLThenOk : Nat → UpsertOutcome :=
  fun a => if a < 2 then .rateLimited else .ok

/-- A one-token document. -/
def cxDocB : Doc := ⟨"B", "uB", "tB", "b"⟩

/-- A 200-token document ("a" repeated). -/
def cxDocA : Doc := ⟨"A", "uA", "tA", String.intercalate " " (List.replicate 200 "a")⟩

/-- A document with empty text (it yields no chunks). -/
def cxDocE : Doc := ⟨"E", "uE", "tE", ""⟩

/-- One-token windows (CHUNK_SECTION_TOKENS=1, CHUNK_PARAGRAPH_TOKENS=1),
no limit: every token becomes one paragraph chunk. -/
def cfgTiny : Config := ⟨1, 1, mkRat 1 5, 0⟩

/-- One-token windows, DRY_RUN_LIMIT=1. -/
def cfgUnit : Config := ⟨1, 1, mkRat 1 5, 1⟩

/-- Default chunking, DRY_RUN_LIMIT=2. -/
def cfgL2 : Config := ⟨512, 128, mkRat 1 5, 2⟩

/-- Default chunking, DRY_RUN_LIMIT=3. -/
def cfgL3 : Config := ⟨512, 128, mkRat 1 5, 3⟩

/-- The single batch entry produced for `cxDocB` (id under `hashId`,
empty vector from `svcEmpty`). -/
def cxEntryB : BatchEntry := ⟨"Bb", [], "B", "uB", "tB"⟩

/-- The loop state after processing just `cxDocB`: one pending entry. -/
def cxStateB : RunState := ⟨[cxEntryB], 0, 0, [], []⟩

/-- The characters of "a a ... a" with `n` tokens, built directly so that
its tokenisation can be established by induction rather than by a deep
kernel evaluation. -/
def spacedAs : Nat → List Char
  | 0 => []
  | 1 => ['a']
  | n+2 => 'a' :: ' ' :: spacedAs (n + 1)

/-- A 1000-token input text. -/
def witnessText1000 : String := String.mk (spacedAs 1000)

/-- A 104-token input text (104 = step 103 + 1, still below the paragraph
window 128). -/
def cxText104 : String := String.intercalate " " (List.replicate 104 "a")

/-!
Sanity theorems for the embedding itself.
-/

set_option maxRecDepth 4000 in
/-- FIPS 180-4 known-answer check for the SHA-256 implementation. -/
theorem sha256hex_abc :
    sha256hex "abc" =
      "ba7816bf8f01cfea414140de5dae2223b00361a396177a9cb410ff61f20015ad" := by
  decide

/-- The `Int.fdiv`-phrased overlap agrees with the rational floor
`⌊P * f⌋` at the default configuration. -/
theorem overlapFor_default_eq_floor :
    overlapFor defaultConfig "paragraph" = (⌊(128 : ℚ) * mkRat 1 5⌋).toNat := by
  rw [show overlapFor defaultConfig "paragraph" = 25 from by decide]
  norm_num [Rat.mkRat_eq_div]
  decide

/-!
Chunker lemmas.
-/

/-- The chunk loop on an exhausted token suffix produces nothing. -/
theorem chunkLoop_nil (size step fuel : Nat) :
    chunkLoop size step fuel [] = [] := by
  cases fuel <;> simp [chunkLoop]

/-- One iteration of the chunk loop on a non-empty suffix: emit the joined
window, continue on the suffix advanced by `step`. -/
theorem chunkLoop_cons (size step fuel : Nat) (rem : List String)
    (hrem : rem ≠ []) (hsize : size ≠ 0) (hfuel : fuel ≠ 0) :
    chunkLoop size step fuel rem =
      String.intercalate " " (rem.take size) ::
        chunkLoop size step (fuel - 1) (rem.drop step) := by
  obtain ⟨f, rfl⟩ := Nat.exists_eq_succ_of_ne_zero hfuel
  have ht : rem.take size ≠ [] := by
    simp [List.take_eq_nil_iff, hsize, hrem]
  simp [chunkLoop, ht]

/-- One iteration at the default paragraph parameters (window 128,
step 103), on the suffix starting at token `k`. -/
theorem chunkLoop_para_step (tokens : List String) (k fuel : Nat)
    (hk : k < tokens.length) (hfuel : fuel ≠ 0) :
    chunkLoop 128 103 fuel (tokens.drop k) =
      String.intercalate " " ((tokens.drop k).take 128) ::
        chunkLoop 128 103 (fuel - 1) (tokens.drop (k + 103)) := by
  have h1 : tokens.drop k ≠ [] := by
    rw [Ne, List.drop_eq_nil_iff]; omega
  rw [chunkLoop_cons 128 103 fuel _ h1 (by decide) hfuel, List.drop_drop]

/-- The tokenisation of "a a ... a" with `n+1` tokens. -/
theorem splitWsAux_spacedAs : ∀ n : Nat,
    splitWsAux (spacedAs (n + 1)) [] = List.replicate (n + 1) "a" := by
  intro n
  induction n with
  | zero => decide
  | succ m ih =>
      calc splitWsAux (spacedAs (m + 2)) []
          = "a" :: splitWsAux (spacedAs (m + 1)) [] := rfl
        _ = "a" :: List.replicate (m + 1) "a" := by rw [ih]
        _ = List.replicate (m + 2) "a" := rfl

/-- C5: for any input of 1000 whitespace-separated tokens, with the
default paragraph window P = 128 and overlap fraction f = 0.2, `chunk_text`
computes the integer overlap O = floor(P·f) = 25 and step = P − O = 103,
and returns exactly 10 chunks, the last covering exactly the final 73
tokens (it equals the join of the tokens from position 927 on, and those
number 73). -/
theorem claimC5 (text : String)
    (hlen : (simple_tokenize text).length = 1000) :
    overlapFor defaultConfig "paragraph" = 25 ∧
    stepFor defaultConfig "paragraph" = 103 ∧
    (chunk_text defaultConfig text "paragraph").length = 10 ∧
    (chunk_text defaultConfig text "paragraph").getLast? =
      some (String.intercalate " " ((simple_tokenize text).drop 927)) ∧
    ((simple_tokenize text).drop 927).length = 73 := by
  have hstep : ∀ k fuel : Nat, k < 1000 → fuel ≠ 0 →
      chunkLoop 128 103 fuel ((simple_tokenize text).drop k) =
        String.intercalate " " (((simple_tokenize text).drop k).take 128) ::
          chunkLoop 128 103 (fuel - 1) ((simple_tokenize text).drop (k + 103)) := by
    intro k fuel hk hf
    exact chunkLoop_para_step _ k fuel (by omega) hf
  have h0 : chunk_text defaultConfig text "paragraph" =
      chunkLoop 128 103 1001 (simple_tokenize text) := by
    show chunkLoop (windowFor defaultConfig "paragraph")
        (stepFor defaultConfig "paragraph")
        ((simple_tokenize text).length + 1) (simple_tokenize text) = _
    rw [show windowFor defaultConfig "paragraph" = 128 from by decide,
      show stepFor defaultConfig "paragraph" = 103 from by decide,
      hlen]
  have h1 := hstep 0 1001 (by omega) (by omega)
  have h2 := hstep 103 1000 (by omega) (by omega)
  have h3 := hstep 206 999 (by omega) (by omega)
  have h4 := hstep 309 998 (by omega) (by omega)
  have h5 := hstep 412 997 (by omega) (by omega)
  have h6 := hstep 515 996 (by omega) (by omega)
  have h7 := hstep 618 995 (by omega) (by omega)
  have h8 := hstep 721 994 (by omega) (by omega)
  have h9 := hstep 824 993 (by omega) (by omega)
  have h10 := hstep 927 992 (by omega) (by omega)
  norm_num at h1 h2 h3 h4 h5 h6 h7 h8 h9 h10
  have hnil : chunkLoop 128 103 991 ((simple_tokenize text).drop 1030) = [] := by
    rw [List.drop_eq_nil_of_le (by omega), chunkLoop_nil]
  have h73 : ((simple_tokenize text).drop 927).length = 73 := by
    simp [hlen]
  have key : chunk_text defaultConfig text "paragraph" =
      [String.intercalate " " ((simple_tokenize text).take 128),
       String.intercalate " " (((simple_tokenize text).drop 103).take 128),
       String.intercalate " " (((simple_tokenize text).drop 206).take 128),
       String.intercalate " " (((simple_tokenize text).drop 309).take 128),
       String.intercalate " " (((simple_tokenize text).drop 412).take 128),
       String.intercalate " " (((simple_tokenize text).drop 515).take 128),
       String.intercalate " " (((simple_tokenize text).drop 618).take 128),
       String.intercalate " " (((simple_tokenize text).drop 721).take 128),
       String.intercalate " " (((simple_tokenize text).drop 824).take 128),
       String.intercalate " " (((simple_tokenize text).drop 927).take 128)] := by
    rw [h0, h1, h2, h3, h4, h5, h6, h7, h8, h9, h10, hnil]
  refine ⟨by decide, by decide, ?_, ?_, h73⟩
  · rw [key]; rfl
  · rw [key,
      show ((simple_tokenize text).drop 927).take 128 =
        (simple_tokenize text).drop 927 from
          List.take_of_length_le (by omega)]
    rfl

/-- Witness for C5 at the concrete 1000-token text. -/
theorem claimC5_witness :
    (simple_tokenize witnessText1000).length = 1000 ∧
    (chunk_text defaultConfig witnessText1000 "paragraph").length = 10 ∧
    (chunk_text defaultConfig witnessText1000 "paragraph").getLast? =
      some (String.intercalate " "
        ((simple_tokenize witnessText1000).drop 927)) := by
  have htok : simple_tokenize witnessText1000 = List.replicate 1000 "a" := by
    show splitWsAux (spacedAs 1000) [] = _
    exact splitWsAux_spacedAs 999
  have hlen : (simple_tokenize witnessText1000).length = 1000 := by
    rw [htok, List.length_replicate]
  obtain ⟨-, -, h3, h4, -⟩ := claimC5 witnessText1000 hlen
  exact ⟨hlen, h3, h4⟩

/-- C6 (amended): for any text with at least one token and token count at
most the STEP of the given level (window − overlap: 512 for sections,
103 for paragraphs at the defaults), `chunk_text` returns exactly one
chunk, the whitespace-join of the tokens.  The original claim's bound
"token count ≤ window size" fails for paragraph token counts in
104..128, where a second (fully overlapped) chunk is emitted, and for
zero tokens, where no chunk is emitted — see the counterexample. -/
theorem claimC6_amended (text level : String)
    (h1 : simple_tokenize text ≠ [])
    (h2 : (simple_tokenize text).length ≤ stepFor defaultConfig level) :
    chunk_text defaultConfig text level =
      [String.intercalate " " (simple_tokenize text)] := by
  have hws : stepFor defaultConfig level ≤ windowFor defaultConfig level := by
    by_cases hl : level = "section"
    · simp [stepFor, windowFor, overlapFor, hl]
    · have ho : overlapFor defaultConfig level = 25 := by
        unfold overlapFor
        rw [if_neg hl]
        decide
      have hw : windowFor defaultConfig level = 128 := by
        unfold windowFor
        rw [if_neg hl]
        rfl
      have hs : stepFor defaultConfig level = 103 := by
        unfold stepFor
        rw [ho, hw]
        norm_num
      rw [hs, hw]
      omega
  have hlenpos : 0 < (simple_tokenize text).length := List.length_pos.mpr h1
  have hW0 : windowFor defaultConfig level ≠ 0 := by omega
  show chunkLoop (windowFor defaultConfig level) (stepFor defaultConfig level)
      ((simple_tokenize text).length + 1) (simple_tokenize text) =
      [String.intercalate " " (simple_tokenize text)]
  rw [chunkLoop_cons _ _ _ _ h1 hW0 (by omega),
    List.take_of_length_le (le_trans h2 hws),
    List.drop_eq_nil_of_le h2, chunkLoop_nil]

set_option maxRecDepth 4000 in
/-- Counterexample to C6 as stated: a 104-token text is within the
paragraph window (104 ≤ 128) yet yields TWO chunks, and the empty text
(0 tokens, also ≤ the window) yields zero chunks. -/
theorem claimC6_counterexample :
    (simple_tokenize cxText104).length = 104 ∧
    (simple_tokenize cxText104).length ≤ windowFor defaultConfig "paragraph" ∧
    (chunk_text defaultConfig cxText104 "paragraph").length = 2 ∧
    chunk_text defaultConfig "" "section" = [] := by decide

/-- Witness for the amended C6 at a concrete two-token text. -/
theorem claimC6_witness :
    simple_tokenize "hello world" ≠ [] ∧
    (simple_tokenize "hello world").length ≤ stepFor defaultConfig "paragraph" ∧
    chunk_text defaultConfig "hello world" "paragraph" =
      [String.intercalate " " (simple_tokenize "hello world")] :=
  ⟨by decide, by decide,
    claimC6_amended "hello world" "paragraph" (by decide) (by decide)⟩

/-- C7: whenever the embedding service fails (on the text the embedder
actually sends, i.e. after the 25000-character truncation), `get_embedding`
returns the all-zero vector of length exactly EMBEDDING_DIMENSION = 1536.
`get_embedding` is a total function: no failure of the service escapes to
the caller. -/
theorem claimC7 (svc : String → Except String (List ℚ)) (text e : String)
    (h : svc (if 25000 < text.length then String.mk (text.data.take 25000)
        else text) = .error e) :
    get_embedding svc text = List.replicate EMBEDDING_DIMENSION 0 ∧
    (get_embedding svc text).length = 1536 := by
  have hz : get_embedding svc text = List.replicate EMBEDDING_DIMENSION 0 := by
    simp only [get_embedding]
    rw [h]
  refine ⟨hz, ?_⟩
  rw [hz, List.length_replicate]
  rfl

/-- Witness for C7 at a concrete text and an always-failing service. -/
theorem claimC7_witness :
    svcDown (if 25000 < "hello".length
        then String.mk ("hello".data.take 25000) else "hello") =
      .error "unavailable" ∧
    get_embedding svcDown "hello" = List.replicate EMBEDDING_DIMENSION 0 ∧
    (get_embedding svcDown "hello").length = 1536 := by
  refine ⟨rfl, ?_, ?_⟩
  · exact (claimC7 svcDown "hello" "unavailable" rfl).1
  · exact (claimC7 svcDown "hello" "unavailable" rfl).2

set_option maxRecDepth 4000 in
/-- C9: the pairs ("ab", "c") and ("a", "bc") are distinct, yet their
chunk ids coincide, because the id is the SHA-256 digest of the bare
concatenation doc_id ++ chunk_text (both concatenate to "abc"); upserting
the second chunk's vector therefore overwrites the first one's entry in
the vector index (looking up the first chunk's id after both upserts
returns the second chunk's vector). -/
theorem claimC9 :
    (("ab", "c") : String × String) ≠ ("a", "bc") ∧
    mkChunkId "ab" "c" = mkChunkId "a" "bc" ∧
    indexUpsert (indexUpsert (fun _ => none) (mkChunkId "ab" "c")
        [(0 : ℚ)]) (mkChunkId "a" "bc") [(1 : ℚ)] (mkChunkId "ab" "c") =
      some [(1 : ℚ)] := by
  refine ⟨by decide, by decide, ?_⟩
  have hid : mkChunkId "ab" "c" = mkChunkId "a" "bc" := by decide
  rw [indexUpsert, if_pos hid]

/-!
Run-level helper lemmas.
-/

/-- `process_and_upsert` is the main loop followed by the final-batch
block, with the checkpoint written only by the latter. -/
theorem process_eq (records : List Doc) (cfg : Config)
    (svc : String → Except String (List ℚ)) (sha : String → String)
    (uO : Nat → Nat → UpsertOutcome) (store : Option Nat) :
    process_and_upsert records cfg svc sha uO store =
      (runLoop uO (windowEntries cfg svc sha records (load_checkpoint store)
          (endIdxOf records cfg store))).map fun s =>
        ⟨(finalStep uO (endIdxOf records cfg store) s).total_upserted,
         (finalStep uO (endIdxOf records cfg store) s).upserted,
         (finalStep uO (endIdxOf records cfg store) s).saves,
         (windowDocs records (load_checkpoint store)
            (endIdxOf records cfg store)).length⟩ := rfl

/-- Inversion for a successful `Except.map`. -/
theorem except_map_ok {ε α β : Type} (f : α → β) (x : Except ε α) (b : β)
    (h : x.map f = .ok b) : ∃ a, x = .ok a ∧ b = f a := by
  cases x with
  | error e => simp [Except.map] at h
  | ok a => exact ⟨a, rfl, by simpa [Except.map] using h.symm⟩

/-- A mid-stream loop iteration never writes a checkpoint. -/
theorem stepEntry_saves (uO : Nat → Nat → UpsertOutcome) (s : RunState)
    (e : BatchEntry) (s2 : RunState) (h : stepEntry uO s e = Except.ok s2) :
    s2.saves = s.saves := by
  simp only [stepEntry] at h
  by_cases hb : BATCH_SIZE ≤ (s.batch ++ [e]).length
  · rw [if_pos hb] at h
    cases hm : midFlush (uO s.flushCount) with
    | flushed n => rw [hm] at h; cases h; rfl
    | dropped => rw [hm] at h; cases h; rfl
    | raised n => rw [hm] at h; exact (Except.noConfusion h)
  · rw [if_neg hb] at h; cases h; rfl

/-- The main loop never writes a checkpoint: a run that reaches the final
block still has the saves it started with. -/
theorem runLoop_saves (uO : Nat → Nat → UpsertOutcome) :
    ∀ (entries : List BatchEntry) (s0 s : RunState),
      entries.foldlM (stepEntry uO) s0 = .ok s → s.saves = s0.saves := by
  intro entries
  induction entries with
  | nil =>
      intro s0 s h
      rw [List.foldlM_nil] at h
      cases h
      rfl
  | cons e es ih =>
      intro s0 s h
      rw [List.foldlM_cons] at h
      cases hse : stepEntry uO s0 e with
      | error u =>
          rw [hse] at h
          exact absurd h (by simp [Bind.bind, Except.bind])
      | ok s1 =>
          rw [hse] at h
          simp only [Bind.bind, Except.bind] at h
          rw [ih s1 s h, stepEntry_saves uO s0 e s1 hse]

/-- No checkpoint is saved when the final flush is abandoned. -/
theorem finalStep_abandoned_saves (uO : Nat → Nat → UpsertOutcome) (e : Nat)
    (s : RunState) (h : finalFlush (uO s.flushCount) = .abandoned) :
    (finalStep uO e s).saves = s.saves := by
  unfold finalStep
  by_cases hb : s.batch = []
  · rw [if_pos hb]
  · rw [if_neg hb, h]

/-- The two outcomes of the final block for the checkpoint: either nothing
was saved, or the remainder was non-empty and exactly `end_idx - 1` was
appended to the saves. -/
theorem finalStep_saves_cases (uO : Nat → Nat → UpsertOutcome) (e : Nat)
    (s : RunState) :
    (finalStep uO e s).saves = s.saves ∨
      ((finalStep uO e s).saves = s.saves ++ [e - 1] ∧ s.batch ≠ []) := by
  unfold finalStep
  by_cases hb : s.batch = []
  · rw [if_pos hb]; left; rfl
  · rw [if_neg hb]
    cases hm : finalFlush (uO s.flushCount) with
    | flushed n => right; exact ⟨rfl, hb⟩
    | abandoned => left; rfl

/-- The final block when the remainder is non-empty and its flush
succeeds: the remainder is upserted and `end_idx - 1` is saved. -/
theorem finalStep_flushed (uO : Nat → Nat → UpsertOutcome) (e : Nat)
    (s : RunState) (n : Nat) (hb : s.batch ≠ [])
    (h : finalFlush (uO s.flushCount) = .flushed n) :
    finalStep uO e s =
      ⟨[], s.total_upserted + s.batch.length, s.flushCount + 1,
       s.upserted ++ s.batch.map BatchEntry.id, s.saves ++ [e - 1]⟩ := by
  unfold finalStep
  rw [if_neg hb, h]

/-- The final block when the remainder is empty: nothing happens. -/
theorem finalStep_empty (uO : Nat → Nat → UpsertOutcome) (e : Nat)
    (s : RunState) (hb : s.batch = []) : finalStep uO e s = s := by
  unfold finalStep
  rw [if_pos hb]

/-!
Retry-loop lemmas.
-/

/-- A successful attempt ends the mid-stream loop. -/
theorem midFlushAux_ok (o : Nat → UpsertOutcome) (a rem : Nat)
    (h : o a = .ok) : midFlushAux o a (rem + 1) = .flushed (a + 1) := by
  simp [midFlushAux, h]

/-- A rate-limited attempt makes the mid-stream loop back off and retry. -/
theorem midFlushAux_rl (o : Nat → UpsertOutcome) (a rem : Nat)
    (h : o a = .rateLimited) :
    midFlushAux o a (rem + 1) = midFlushAux o (a + 1) rem := by
  simp [midFlushAux, h]

/-- Any other failure is re-raised by the mid-stream loop. -/
theorem midFlushAux_err (o : Nat → UpsertOutcome) (a rem : Nat)
    (h : o a = .otherError) :
    midFlushAux o a (rem + 1) = .raised (a + 1) := by
  simp [midFlushAux, h]

/-- A successful attempt ends the final-flush loop. -/
theorem finalFlushAux_ok (o : Nat → UpsertOutcome) (a rem : Nat)
    (h : o a = .ok) : finalFlushAux o a (rem + 1) = .flushed (a + 1) := by
  simp [finalFlushAux, h]

/-- The final-flush loop retries on EVERY failure, rate limit or not. -/
theorem finalFlushAux_retry (o : Nat → UpsertOutcome) (a rem : Nat)
    (h : o a ≠ .ok) :
    finalFlushAux o a (rem + 1) = finalFlushAux o (a + 1) rem := by
  cases ho : o a with
  | ok => exact absurd ho h
  | rateLimited => simp [finalFlushAux, ho]
  | otherError => simp [finalFlushAux, ho]

/-- If the first `i` attempts are rate-limited and attempt `i` fails with
a non-429 error and attempts remain, the mid-stream loop re-raises. -/
theorem midFlushAux_raised_of_first_err (o : Nat → UpsertOutcome) :
    ∀ (i a rem : Nat), i < rem →
      (∀ j, j < i → o (a + j) = .rateLimited) →
      o (a + i) = .otherError →
      midFlushAux o a rem = .raised (a + i + 1) := by
  intro i
  induction i with
  | zero =>
      intro a rem hrem hrl herr
      obtain ⟨r, rfl⟩ := Nat.exists_eq_succ_of_ne_zero
        (show rem ≠ 0 by omega)
      rw [midFlushAux_err o a r (by simpa using herr)]
  | succ m ih =>
      intro a rem hrem hrl herr
      obtain ⟨r, rfl⟩ := Nat.exists_eq_succ_of_ne_zero
        (show rem ≠ 0 by omega)
      rw [midFlushAux_rl o a r (by simpa using hrl 0 (by omega))]
      have hshift : ∀ j, j < m → o (a + 1 + j) = .rateLimited := by
        intro j hj
        have h2 := hrl (j + 1) (by omega)
        rwa [show a + (j + 1) = a + 1 + j by omega] at h2
      have herr2 : o (a + 1 + m) = .otherError := by
        rwa [show a + (m + 1) = a + 1 + m by omega] at herr
      rw [ih (a + 1) r (by omega) hshift herr2,
        show a + 1 + m + 1 = a + (m + 1) + 1 by omega]

/-- If every attempt in range is rate-limited, the mid-stream loop falls
through: the batch will be dropped. -/
theorem midFlushAux_dropped_of_all_rl (o : Nat → UpsertOutcome) :
    ∀ (rem a : Nat), (∀ j, j < a + rem → o j = .rateLimited) →
      midFlushAux o a rem = .dropped := by
  intro rem
  induction rem with
  | zero => intro a h; rfl
  | succ r ih =>
      intro a h
      rw [midFlushAux_rl o a r (h a (by omega))]
      exact ih (a + 1) (fun j hj => h j (by omega))

/-- If every attempt in range fails (in any way), the final-flush loop
falls through: the remainder is silently abandoned. -/
theorem finalFlushAux_abandoned_of_all_fail (o : Nat → UpsertOutcome) :
    ∀ (rem a : Nat), (∀ j, j < a + rem → o j ≠ .ok) →
      finalFlushAux o a rem = .abandoned := by
  intro rem
  induction rem with
  | zero => intro a h; rfl
  | succ r ih =>
      intro a h
      rw [finalFlushAux_retry o a r (h a (by omega))]
      exact ih (a + 1) (fun j hj => h j (by omega))

set_option maxRecDepth 4000 in
/-- Counterexample to C1 as stated: with a vector index whose every upsert
attempt fails with a NON-rate-limit error, a run whose (non-empty)
remainder reaches the final flush still returns successfully — the final
flush swallows the failures (five retries, then silent abandonment), the
run does not fail, and the data is dropped (nothing upserted, nothing
saved).  The claimed propagation therefore does not hold for the final
flush of the remainder at stream end. -/
theorem claimC1_counterexample :
    process_and_upsert [cxDocB] cfgUnit svcDown hashId errOracle none =
      .ok ⟨0, [], [], 1⟩ ∧
    (windowEntries cfgUnit svcDown hashId [cxDocB] 0 1).length = 1 ∧
    finalFlush (errOracle 0) = .abandoned := by
  exact ⟨by decide, by decide, by decide⟩

/-- C1 (amended): a non-rate-limit failure aborts the flush and propagates
(failing the run) for MID-STREAM flushes only: (1) the mid-stream retry
loop re-raises at the first non-429 error; (2) whenever the mid-stream
loop nest completes, the run returns successfully regardless of the final
flush's outcomes — the final flush catches every exception, retries up to
5 times, and never fails the run; (3) when the final flush is abandoned,
no checkpoint is saved. -/
theorem claimC1_amended :
    (∀ (o : Nat → UpsertOutcome) (i : Nat),
        i < MAX_UPSERT_ATTEMPTS →
        (∀ j, j < i → o j = UpsertOutcome.rateLimited) →
        o i = UpsertOutcome.otherError →
        midFlush o = MidFlushResult.raised (i + 1)) ∧
    (∀ (records : List Doc) (cfg : Config)
        (svc : String → Except String (List ℚ)) (sha : String → String)
        (uO : Nat → Nat → UpsertOutcome) (store : Option Nat) (s : RunState),
        runLoop uO (windowEntries cfg svc sha records (load_checkpoint store)
            (endIdxOf records cfg store)) = .ok s →
        ∃ r, process_and_upsert records cfg svc sha uO store = Except.ok r) ∧
    (∀ (uO : Nat → Nat → UpsertOutcome) (e : Nat) (s : RunState),
        finalFlush (uO s.flushCount) = FinalFlushResult.abandoned →
        (finalStep uO e s).saves = s.saves) := by
  refine ⟨?_, ?_, ?_⟩
  · intro o i hi hrl herr
    have h := midFlushAux_raised_of_first_err o i 0 MAX_UPSERT_ATTEMPTS hi
      (fun j hj => by simpa using hrl j hj) (by simpa using herr)
    simpa [midFlush] using h
  · intro records cfg svc sha uO store s h
    refine ⟨⟨(finalStep uO (endIdxOf records cfg store) s).total_upserted,
      (finalStep uO (endIdxOf records cfg store) s).upserted,
      (finalStep uO (endIdxOf records cfg store) s).saves,
      (windowDocs records (load_checkpoint store)
        (endIdxOf records cfg store)).length⟩, ?_⟩
    rw [process_eq, h]
    rfl
  · intro uO e s h
    exact finalStep_abandoned_saves uO e s h

set_option maxRecDepth 4000 in
/-- Witness for the amended C1 at concrete oracles and a concrete run. -/
theorem claimC1_witness :
    midFlush (fun _ => UpsertOutcome.otherError) = MidFlushResult.raised 1 ∧
    (∃ r, process_and_upsert [cxDocB] cfgUnit svcEmpty hashId errOracle none =
      Except.ok r) ∧
    (finalStep errOracle 1 cxStateB).saves = cxStateB.saves := by
  obtain ⟨hA, hB, hC⟩ := claimC1_amended
  refine ⟨?_, ?_, ?_⟩
  · exact hA (fun _ => UpsertOutcome.otherError) 0 (by decide)
      (fun j hj => absurd hj (by omega)) rfl
  · exact hB [cxDocB] cfgUnit svcEmpty hashId errOracle none cxStateB (by decide)
  · exact hC errOracle 1 cxStateB (by decide)

set_option maxRecDepth 4000 in
/-- Counterexample to C3 as stated: five consecutive rate-limit responses
do NOT result in a propagated failure — a run whose every attempt is
rate-limited still returns successfully (the mid-stream loop would drop
its batch, the final loop abandons the remainder), with nothing upserted
and no checkpoint saved but also no error. -/
theorem claimC3_counterexample :
    process_and_upsert [cxDocB] cfgUnit svcDown hashId rlOracle none =
      .ok ⟨0, [], [], 1⟩ ∧
    (windowEntries cfgUnit svcDown hashId [cxDocB] 0 1).length = 1 := by
  exact ⟨by decide, by decide⟩

/-- C3 (amended): rate-limiting on 2 consecutive attempts followed by
success yields exactly 3 attempts and a successful flush (for both the
mid-stream and the final retry loop).  Five consecutive rate-limited
attempts do NOT propagate a failure: the mid-stream loop falls through
(the batch is then dropped) and the final loop abandons the remainder;
in both cases the flush itself advances no checkpoint (mid-stream
iterations never save, and an abandoned final flush leaves the saved
checkpoints unchanged). -/
theorem claimC3_amended :
    (∀ o : Nat → UpsertOutcome,
        o 0 = UpsertOutcome.rateLimited → o 1 = UpsertOutcome.rateLimited →
        o 2 = UpsertOutcome.ok →
        midFlush o = MidFlushResult.flushed 3 ∧
        finalFlush o = FinalFlushResult.flushed 3) ∧
    (∀ o : Nat → UpsertOutcome,
        (∀ a, a < MAX_UPSERT_ATTEMPTS → o a = UpsertOutcome.rateLimited) →
        midFlush o = MidFlushResult.dropped ∧
        finalFlush o = FinalFlushResult.abandoned) ∧
    (∀ (uO : Nat → Nat → UpsertOutcome) (s : RunState) (e : BatchEntry)
        (s2 : RunState),
        stepEntry uO s e = Except.ok s2 → s2.saves = s.saves) ∧
    (∀ (uO : Nat → Nat → UpsertOutcome) (e : Nat) (s : RunState),
        finalFlush (uO s.flushCount) = FinalFlushResult.abandoned →
        (finalStep uO e s).saves = s.saves) := by
  refine ⟨?_, ?_, stepEntry_saves, finalStep_abandoned_saves⟩
  · intro o h0 h1 h2
    constructor
    · show midFlushAux o 0 5 = _
      rw [midFlushAux_rl o 0 4 h0, midFlushAux_rl o 1 3 h1,
        midFlushAux_ok o 2 2 h2]
    · show finalFlushAux o 0 5 = _
      rw [finalFlushAux_retry o 0 4 (by simp [h0]),
        finalFlushAux_retry o 1 3 (by simp [h1]),
        finalFlushAux_ok o 2 2 h2]
  · intro o h
    constructor
    · show midFlushAux o 0 MAX_UPSERT_ATTEMPTS = _
      exact midFlushAux_dropped_of_all_rl o MAX_UPSERT_ATTEMPTS 0
        (fun j hj => h j (by simpa using hj))
    · show finalFlushAux o 0 MAX_UPSERT_ATTEMPTS = _
      exact finalFlushAux_abandoned_of_all_fail o MAX_UPSERT_ATTEMPTS 0
        (fun j hj => by rw [h j (by simpa using hj)]; simp)

set_option maxRecDepth 4000 in
/-- Witness for the amended C3 at concrete oracles and a concrete state. -/
theorem claimC3_witness :
    midFlush twoRLThenOk = MidFlushResult.flushed 3 ∧
    finalFlush twoRLThenOk = FinalFlushResult.flushed 3 ∧
    midFlush (rlOracle 0) = MidFlushResult.dropped ∧
    finalFlush (rlOracle 0) = FinalFlushResult.abandoned ∧
    stepEntry rlOracle initState cxEntryB = Except.ok cxStateB ∧
    cxStateB.saves = initState.saves ∧
    (finalStep rlOracle 7 cxStateB).saves = cxStateB.saves := by
  obtain ⟨hA, hB, hC, hD⟩ := claimC3_amended
  refine ⟨(hA twoRLThenOk rfl rfl rfl).1, (hA twoRLThenOk rfl rfl rfl).2,
    (hB (rlOracle 0) (fun a _ => rfl)).1,
    (hB (rlOracle 0) (fun a _ => rfl)).2,
    by decide, ?_, ?_⟩
  · exact hC rlOracle initState cxEntryB cxStateB (by decide)
  · exact hD rlOracle 7 cxStateB (by decide)

/-!
Flush-completeness lemmas (used for the checkpoint-safety claims).
-/

/-- One iteration, when the mid-stream flush cannot be dropped: the ids
accounted for (already upserted plus still pending) grow by exactly the
appended entry. -/
theorem stepEntry_upserted (uO : Nat → Nat → UpsertOutcome) (s : RunState)
    (e : BatchEntry) (s2 : RunState)
    (hnd : midFlush (uO s.flushCount) ≠ .dropped)
    (h : stepEntry uO s e = Except.ok s2) :
    s2.upserted ++ s2.batch.map BatchEntry.id =
      s.upserted ++ s.batch.map BatchEntry.id ++ [e.id] := by
  simp only [stepEntry] at h
  by_cases hb : BATCH_SIZE ≤ (s.batch ++ [e]).length
  · rw [if_pos hb] at h
    cases hm : midFlush (uO s.flushCount) with
    | flushed n => rw [hm] at h; cases h; simp
    | dropped => exact absurd hm hnd
    | raised n => rw [hm] at h; exact (Except.noConfusion h)
  · rw [if_neg hb] at h; cases h; simp

/-- Main-loop invariant, when no mid-stream flush is dropped: the ids
upserted so far plus the pending batch are exactly the entries consumed. -/
theorem runLoop_upserted (uO : Nat → Nat → UpsertOutcome)
    (hnd : ∀ f, midFlush (uO f) ≠ .dropped) :
    ∀ (entries : List BatchEntry) (s0 s : RunState),
      entries.foldlM (stepEntry uO) s0 = .ok s →
      s.upserted ++ s.batch.map BatchEntry.id =
        s0.upserted ++ s0.batch.map BatchEntry.id ++
          entries.map BatchEntry.id := by
  intro entries
  induction entries with
  | nil =>
      intro s0 s h
      rw [List.foldlM_nil] at h
      cases h
      simp
  | cons e es ih =>
      intro s0 s h
      rw [List.foldlM_cons] at h
      cases hse : stepEntry uO s0 e with
      | error u =>
          rw [hse] at h
          exact absurd h (by simp [Bind.bind, Except.bind])
      | ok s1 =>
          rw [hse] at h
          simp only [Bind.bind, Except.bind] at h
          rw [ih s1 s h,
            stepEntry_upserted uO s0 e s1 (hnd s0.flushCount) hse]
          simp

/-- With an oracle whose every attempt succeeds, each loop iteration
succeeds. -/
theorem stepEntry_ok_exists (uO : Nat → Nat → UpsertOutcome) (s : RunState)
    (e : BatchEntry) (hok : ∀ a, uO s.flushCount a = .ok) :
    ∃ s2, stepEntry uO s e = Except.ok s2 := by
  simp only [stepEntry]
  by_cases hb : BATCH_SIZE ≤ (s.batch ++ [e]).length
  · rw [if_pos hb,
      show midFlush (uO s.flushCount) = .flushed 1 from
        midFlushAux_ok _ 0 4 (hok 0)]
    exact ⟨_, rfl⟩
  · rw [if_neg hb]
    exact ⟨_, rfl⟩

/-- With an all-successful oracle, the whole main loop succeeds. -/
theorem runLoop_ok_of_hok (uO : Nat → Nat → UpsertOutcome)
    (hok : ∀ f a, uO f a = .ok) :
    ∀ (entries : List BatchEntry) (s0 : RunState),
      ∃ s, entries.foldlM (stepEntry uO) s0 = .ok s := by
  intro entries
  induction entries with
  | nil => intro s0; exact ⟨s0, rfl⟩
  | cons e es ih =>
      intro s0
      obtain ⟨s1, hs1⟩ := stepEntry_ok_exists uO s0 e (hok s0.flushCount)
      obtain ⟨s, hs⟩ := ih s1
      refine ⟨s, ?_⟩
      rw [List.foldlM_cons, hs1]
      exact hs

/-- An empty entry stream leaves the loop in its initial state. -/
theorem runLoop_nil_state (uO : Nat → Nat → UpsertOutcome) (s : RunState)
    (h : runLoop uO [] = .ok s) : s = initState := by
  rw [runLoop, List.foldlM_nil] at h
  cases h
  rfl

/-- Membership in the processed window: exactly the documents whose index
lies in `[start_idx, end_idx)` (and exists). -/
theorem windowDocs_mem_iff (records : List Doc) (a b i : Nat) (d : Doc) :
    (i, d) ∈ windowDocs records a b ↔
      a ≤ i ∧ i < b ∧ records[i]? = some d := by
  unfold windowDocs
  rw [List.mem_filter]
  simp only [decide_eq_true_eq]
  constructor
  · rintro ⟨hmem, h1, h2⟩
    exact ⟨h1, h2, List.mk_mem_enum_iff_getElem?.mp hmem⟩
  · rintro ⟨h1, h2, h3⟩
    exact ⟨List.mk_mem_enum_iff_getElem?.mpr h3, h1, h2⟩

set_option maxRecDepth 8000 in
/-- Counterexample to C2 as stated: with one-token windows, a 200-token
document (index 0) fills one batch, whose flush is rate-limited on all
five attempts — the batch is DROPPED silently, not upserted.  The run
continues, the one-entry remainder for document 1 is flushed, and the
checkpoint 1 is saved: the checkpoint advanced past document 0, whose 200
accumulated vectors (ids "Aa") were never upserted (only "Bb" was). -/
theorem claimC2_counterexample :
    process_and_upsert [cxDocA, cxDocB] cfgTiny svcDown hashId
        dropFirstOracle none = .ok ⟨1, ["Bb"], [1], 2⟩ ∧
    (windowEntries cfgTiny svcDown hashId [cxDocA, cxDocB] 0 2).map
        BatchEntry.id = List.replicate 200 "Aa" ++ ["Bb"] := by
  exact ⟨by decide, by decide⟩

/-- C2 (amended): provided no mid-stream flush exhausts its five attempts
rate-limited (which would drop its batch silently — see the
counterexample), a batch is either fully flushed or the run fails before
checkpointing: whenever a run returns successfully and saved a
checkpoint, every vector accumulated in the window was upserted to the
vector index (in order). -/
theorem claimC2_amended (records : List Doc) (cfg : Config)
    (svc : String → Except String (List ℚ)) (sha : String → String)
    (uO : Nat → Nat → UpsertOutcome) (store : Option Nat) (r : RunResult)
    (hnd : ∀ f, midFlush (uO f) ≠ .dropped)
    (hr : process_and_upsert records cfg svc sha uO store = .ok r)
    (hs : r.saves ≠ []) :
    r.upserted =
      (windowEntries cfg svc sha records (load_checkpoint store)
        (endIdxOf records cfg store)).map BatchEntry.id := by
  rw [process_eq] at hr
  obtain ⟨s, hloop, hrfs⟩ := except_map_ok _ _ _ hr
  have hups := runLoop_upserted uO hnd _ initState s hloop
  simp only [initState, List.map_nil, List.append_nil, List.nil_append]
    at hups
  have hsv : s.saves = [] := runLoop_saves uO _ initState s hloop
  subst hrfs
  simp only [] at hs ⊢
  by_cases hb : s.batch = []
  · rw [finalStep_empty uO _ s hb]
    rw [hb] at hups
    simpa using hups
  · cases hm : finalFlush (uO s.flushCount) with
    | abandoned =>
        rw [finalStep_abandoned_saves uO _ s hm, hsv] at hs
        exact absurd rfl hs
    | flushed n =>
        rw [finalStep_flushed uO _ s n hb hm]
        exact hups

set_option maxRecDepth 4000 in
/-- Witness for the amended C2: an all-successful index, one document,
default configuration — the saved checkpoint is 9 and the single
accumulated vector was upserted. -/
theorem claimC2_witness :
    (∀ f, midFlush (okOracle f) ≠ MidFlushResult.dropped) ∧
    process_and_upsert [cxDocB] defaultConfig svcDown hashId okOracle none =
      .ok ⟨1, ["Bb"], [9], 1⟩ ∧
    (⟨1, ["Bb"], [9], 1⟩ : RunResult).saves ≠ [] ∧
    (⟨1, ["Bb"], [9], 1⟩ : RunResult).upserted =
      (windowEntries defaultConfig svcDown hashId [cxDocB]
        (load_checkpoint none) (endIdxOf [cxDocB] defaultConfig none)).map
        BatchEntry.id := by
  have hnd : ∀ f, midFlush (okOracle f) ≠ MidFlushResult.dropped := by
    intro f
    rw [show midFlush (okOracle f) = .flushed 1 from rfl]
    simp
  refine ⟨hnd, by decide, by decide, ?_⟩
  exact claimC2_amended [cxDocB] defaultConfig svcDown hashId okOracle none
    ⟨1, ["Bb"], [9], 1⟩ hnd (by decide) (by decide)

set_option maxRecDepth 4000 in
/-- Counterexample to C4 as stated: a run over a document with empty text
completes its window without any error, yet performs NO checkpointing at
all — the remainder batch is empty, and the save only happens inside the
final-batch block. -/
theorem claimC4_counterexample :
    process_and_upsert [cxDocE] defaultConfig svcDown hashId okOracle none =
      .ok ⟨0, [], [], 1⟩ ∧
    (⟨0, [], [], 1⟩ : RunResult).saves = [] := by
  exact ⟨by decide, by decide⟩

/-- C4 (amended): when the main loop completes and leaves a NON-EMPTY
remainder whose final flush succeeds, checkpointing executes exactly
once, after that final flush, saving exactly `end_idx - 1`.  (A window
whose remainder is empty — no chunks at all, or a chunk count that is an
exact multiple of BATCH_SIZE — saves no checkpoint, as the counterexample
shows; an abandoned final flush likewise saves nothing.) -/
theorem claimC4_amended (records : List Doc) (cfg : Config)
    (svc : String → Except String (List ℚ)) (sha : String → String)
    (uO : Nat → Nat → UpsertOutcome) (store : Option Nat) (s : RunState)
    (k : Nat)
    (hloop : runLoop uO (windowEntries cfg svc sha records
        (load_checkpoint store) (endIdxOf records cfg store)) = .ok s)
    (hb : s.batch ≠ [])
    (hff : finalFlush (uO s.flushCount) = .flushed k) :
    process_and_upsert records cfg svc sha uO store =
      .ok ⟨s.total_upserted + s.batch.length,
           s.upserted ++ s.batch.map BatchEntry.id,
           [endIdxOf records cfg store - 1],
           (windowDocs records (load_checkpoint store)
              (endIdxOf records cfg store)).length⟩ := by
  have hsv : s.saves = [] := runLoop_saves uO _ initState s hloop
  rw [process_eq, hloop]
  have hfs := finalStep_flushed uO (endIdxOf records cfg store) s k hb hff
  simp [Except.map, hfs, hsv]

set_option maxRecDepth 4000 in
/-- Witness for the amended C4: one document, default configuration, an
all-successful index; the run saves exactly `[9]` = `[end_idx - 1]`. -/
theorem claimC4_witness :
    process_and_upsert [cxDocB] defaultConfig svcEmpty hashId okOracle none =
      .ok ⟨cxStateB.total_upserted + cxStateB.batch.length,
           cxStateB.upserted ++ cxStateB.batch.map BatchEntry.id,
           [endIdxOf [cxDocB] defaultConfig none - 1],
           (windowDocs [cxDocB] (load_checkpoint none)
              (endIdxOf [cxDocB] defaultConfig none)).length⟩ := by
  exact claimC4_amended [cxDocB] defaultConfig svcEmpty hashId okOracle none
    cxStateB 1 (by decide) (by decide) (by decide)

/-- C8: the persisted checkpoint is monotonically non-decreasing across
successful runs — for any DRY_RUN_LIMIT (as a natural number, so any
value ≥ 0) and any starting checkpoint store, every checkpoint value a
run saves is at least the value `load_checkpoint` returned at its start. -/
theorem claimC8 (records : List Doc) (cfg : Config)
    (svc : String → Except String (List ℚ)) (sha : String → String)
    (uO : Nat → Nat → UpsertOutcome) (store : Option Nat) (r : RunResult)
    (v : Nat)
    (hr : process_and_upsert records cfg svc sha uO store = .ok r)
    (hv : v ∈ r.saves) :
    load_checkpoint store ≤ v := by
  rw [process_eq] at hr
  obtain ⟨s, hloop, hrfs⟩ := except_map_ok _ _ _ hr
  have hsv : s.saves = [] := runLoop_saves uO _ initState s hloop
  subst hrfs
  simp only [] at hv
  rcases finalStep_saves_cases uO (endIdxOf records cfg store) s with
    hc | ⟨hc, hbne⟩
  · rw [hc, hsv] at hv
    simp at hv
  · rw [hc, hsv, List.nil_append] at hv
    rw [List.mem_singleton] at hv
    subst hv
    by_cases hL : 0 < cfg.dryRunLimit
    · unfold endIdxOf
      rw [if_pos hL]
      omega
    · have hents : windowEntries cfg svc sha records (load_checkpoint store)
          (endIdxOf records cfg store) ≠ [] := by
        intro hnil
        rw [hnil] at hloop
        have hinit : s = initState := runLoop_nil_state uO s hloop
        rw [hinit] at hbne
        exact hbne rfl
      obtain ⟨ent, hent⟩ := List.exists_mem_of_ne_nil _ hents
      unfold windowEntries at hent
      rw [List.mem_flatMap] at hent
      obtain ⟨p, hp, -⟩ := hent
      obtain ⟨i, d⟩ := p
      rw [windowDocs_mem_iff] at hp
      obtain ⟨hp1, -, hp3⟩ := hp
      have hilen : i < records.length := by
        rw [List.getElem?_eq_some_iff] at hp3
        exact hp3.1
      unfold endIdxOf
      rw [if_neg hL]
      omega

set_option maxRecDepth 4000 in
/-- Witness for C8: starting checkpoint 5 with DRY_RUN_LIMIT 3 over six
documents; the run saves 7 ≥ 5. -/
theorem claimC8_witness :
    process_and_upsert (List.replicate 6 cxDocB) cfgL3 svcDown hashId
      okOracle (some 5) = .ok ⟨1, ["Bb"], [7], 1⟩ ∧
    7 ∈ (⟨1, ["Bb"], [7], 1⟩ : RunResult).saves ∧
    load_checkpoint (some 5) ≤ 7 := by
  refine ⟨by decide, by decide, ?_⟩
  exact claimC8 (List.replicate 6 cxDocB) cfgL3 svcDown hashId okOracle
    (some 5) ⟨1, ["Bb"], [7], 1⟩ 7 (by decide) (by decide)

/-- With an all-successful index, a run succeeds and upserts exactly the
entries of its window. -/
theorem allok_run (records : List Doc) (cfg : Config)
    (svc : String → Except String (List ℚ)) (sha : String → String)
    (uO : Nat → Nat → UpsertOutcome) (store : Option Nat)
    (hok : ∀ f a, uO f a = .ok) :
    ∃ r, process_and_upsert records cfg svc sha uO store = .ok r ∧
      r.upserted = (windowEntries cfg svc sha records (load_checkpoint store)
        (endIdxOf records cfg store)).map BatchEntry.id := by
  obtain ⟨s, hs⟩ := runLoop_ok_of_hok uO hok
    (windowEntries cfg svc sha records (load_checkpoint store)
      (endIdxOf records cfg store)) initState
  have hnd : ∀ f, midFlush (uO f) ≠ .dropped := by
    intro f
    rw [show midFlush (uO f) = .flushed 1 from midFlushAux_ok _ 0 4 (hok f 0)]
    simp
  have hloop : runLoop uO (windowEntries cfg svc sha records
      (load_checkpoint store) (endIdxOf records cfg store)) = .ok s := hs
  have hups := runLoop_upserted uO hnd _ initState s hloop
  simp only [initState, List.map_nil, List.append_nil, List.nil_append]
    at hups
  refine ⟨⟨(finalStep uO (endIdxOf records cfg store) s).total_upserted,
    (finalStep uO (endIdxOf records cfg store) s).upserted,
    (finalStep uO (endIdxOf records cfg store) s).saves,
    (windowDocs records (load_checkpoint store)
      (endIdxOf records cfg store)).length⟩, ?_, ?_⟩
  · rw [process_eq, hloop]
    rfl
  · show (finalStep uO (endIdxOf records cfg store) s).upserted = _
    by_cases hb : s.batch = []
    · rw [finalStep_empty uO _ s hb]
      rw [hb] at hups
      simpa using hups
    · have hff : finalFlush (uO s.flushCount) = .flushed 1 :=
        finalFlushAux_ok _ 0 4 (hok s.flushCount 0)
      rw [finalStep_flushed uO _ s 1 hb hff]
      exact hups

set_option maxRecDepth 4000 in
/-- Counterexample to C10 as stated: with DRY_RUN_LIMIT = 2 over a SINGLE
document, the first run saves checkpoint `end_idx - 1 = 1`, an index past
the last document.  The second consecutive run starts at 1 (equal to the
saved checkpoint, as claimed) but processes ZERO documents: the document
at index `end_idx - 1` does not exist and nothing is re-chunked or
re-upserted, and the two slices overlap in zero documents, not one. -/
theorem claimC10_counterexample :
    process_and_upsert [cxDocB] cfgL2 svcDown hashId okOracle none =
      .ok ⟨1, ["Bb"], [1], 1⟩ ∧
    process_and_upsert [cxDocB] cfgL2 svcDown hashId okOracle
      (save_checkpoint 1) = .ok ⟨0, [], [], 0⟩ ∧
    windowDocs [cxDocB] 1 3 = [] := by
  exact ⟨by decide, by decide, by decide⟩

/-- C10 (amended): for two consecutive successful runs with the same
positive DRY_RUN_LIMIT, PROVIDED the first run's window `[start, start+L)`
lies within the document set, the second run's start equals the first
run's saved checkpoint `end_idx - 1`; the second window skips only
documents strictly below its start; the document at `end_idx - 1` lies in
both windows, the windows overlap in exactly that one index, no document
in the combined range is skipped, and (with an all-successful index) the
second run re-embeds and re-upserts that document's chunks. -/
theorem claimC10_amended (records : List Doc) (cfg : Config)
    (svc : String → Except String (List ℚ)) (sha : String → String)
    (o1 o2 : Nat → Nat → UpsertOutcome) (store : Option Nat)
    (r1 : RunResult) (v : Nat) (d0 : Doc)
    (hL : 0 < cfg.dryRunLimit)
    (hr1 : process_and_upsert records cfg svc sha o1 store = .ok r1)
    (hsv : r1.saves = [v])
    (hok2 : ∀ f a, o2 f a = .ok)
    (hd0 : records[load_checkpoint store + cfg.dryRunLimit - 1]? = some d0) :
    v = load_checkpoint store + cfg.dryRunLimit - 1 ∧
    load_checkpoint (save_checkpoint v) = v ∧
    (∀ i d, (i, d) ∈ windowDocs records v (v + cfg.dryRunLimit) → v ≤ i) ∧
    ((v, d0) ∈ windowDocs records (load_checkpoint store)
        (load_checkpoint store + cfg.dryRunLimit) ∧
      (v, d0) ∈ windowDocs records v (v + cfg.dryRunLimit)) ∧
    (∀ i, ((∃ d, (i, d) ∈ windowDocs records (load_checkpoint store)
          (load_checkpoint store + cfg.dryRunLimit)) ∧
        (∃ d, (i, d) ∈ windowDocs records v (v + cfg.dryRunLimit))) ↔
        i = v) ∧
    (∀ i, load_checkpoint store ≤ i → i < v + cfg.dryRunLimit →
        i < records.length →
        (∃ d, (i, d) ∈ windowDocs records (load_checkpoint store)
          (load_checkpoint store + cfg.dryRunLimit)) ∨
        (∃ d, (i, d) ∈ windowDocs records v (v + cfg.dryRunLimit))) ∧
    (∃ r2, process_and_upsert records cfg svc sha o2 (save_checkpoint v) =
        .ok r2 ∧
      ∀ ent ∈ docEntries cfg svc sha d0, ent.id ∈ r2.upserted) := by
  rw [process_eq] at hr1
  obtain ⟨s, hloop, hrfs⟩ := except_map_ok _ _ _ hr1
  have hsv0 : s.saves = [] := runLoop_saves o1 _ initState s hloop
  subst hrfs
  simp only [] at hsv
  have hv : v = load_checkpoint store + cfg.dryRunLimit - 1 := by
    rcases finalStep_saves_cases o1 (endIdxOf records cfg store) s with
      hc | ⟨hc, -⟩
    · rw [hc, hsv0] at hsv
      exact absurd hsv (by simp)
    · rw [hc, hsv0, List.nil_append] at hsv
      have he : endIdxOf records cfg store - 1 = v := by
        simpa using hsv
      rw [← he]
      unfold endIdxOf
      rw [if_pos hL]
  have hm1 : (v, d0) ∈ windowDocs records (load_checkpoint store)
      (load_checkpoint store + cfg.dryRunLimit) := by
    rw [windowDocs_mem_iff]
    refine ⟨by omega, by omega, ?_⟩
    rw [hv]
    exact hd0
  have hm2 : (v, d0) ∈ windowDocs records v (v + cfg.dryRunLimit) := by
    rw [windowDocs_mem_iff]
    refine ⟨le_refl v, by omega, ?_⟩
    rw [hv]
    exact hd0
  refine ⟨hv, rfl, ?_, ⟨hm1, hm2⟩, ?_, ?_, ?_⟩
  · intro i d hm
    rw [windowDocs_mem_iff] at hm
    exact hm.1
  · intro i
    constructor
    · rintro ⟨⟨d1, hma⟩, ⟨d2, hmb⟩⟩
      rw [windowDocs_mem_iff] at hma hmb
      omega
    · rintro rfl
      exact ⟨⟨d0, hm1⟩, ⟨d0, hm2⟩⟩
  · intro i hi1 hi2 hilen
    by_cases hc : i < load_checkpoint store + cfg.dryRunLimit
    · left
      exact ⟨records[i], (windowDocs_mem_iff records _ _ i _).mpr
        ⟨hi1, hc, List.getElem?_eq_getElem hilen⟩⟩
    · right
      exact ⟨records[i], (windowDocs_mem_iff records _ _ i _).mpr
        ⟨by omega, hi2, List.getElem?_eq_getElem hilen⟩⟩
  · obtain ⟨r2, hr2, hup2⟩ :=
      allok_run records cfg svc sha o2 (save_checkpoint v) hok2
    have he2 : endIdxOf records cfg (save_checkpoint v) =
        v + cfg.dryRunLimit := by
      unfold endIdxOf
      rw [if_pos hL]
      rfl
    refine ⟨r2, hr2, ?_⟩
    intro ent hent
    rw [hup2]
    have hmemw : (v, d0) ∈ windowDocs records
        (load_checkpoint (save_checkpoint v))
        (endIdxOf records cfg (save_checkpoint v)) := by
      rw [he2, show load_checkpoint (save_checkpoint v) = v from rfl]
      exact hm2
    have hentw : ent ∈ windowEntries cfg svc sha records
        (load_checkpoint (save_checkpoint v))
        (endIdxOf records cfg (save_checkpoint v)) := by
      unfold windowEntries
      rw [List.mem_flatMap]
      exact ⟨(v, d0), hmemw, hent⟩
    exact List.mem_map_of_mem _ hentw

set_option maxRecDepth 4000 in
/-- Witness for the amended C10: limit 2 over two documents; the first
run saves 1 = end_idx − 1, the second run starts there, document 1 is in
both windows, and its entries are re-upserted by the second run. -/
theorem claimC10_witness :
    (1 : Nat) = load_checkpoint none + cfgL2.dryRunLimit - 1 ∧
    load_checkpoint (save_checkpoint 1) = 1 ∧
    (1, cxDocB) ∈ windowDocs (List.replicate 2 cxDocB) (load_checkpoint none)
      (load_checkpoint none + cfgL2.dryRunLimit) ∧
    (1, cxDocB) ∈ windowDocs (List.replicate 2 cxDocB) 1
      (1 + cfgL2.dryRunLimit) ∧
    (∃ r2, process_and_upsert (List.replicate 2 cxDocB) cfgL2 svcDown hashId
        okOracle (save_checkpoint 1) = .ok r2 ∧
      ∀ ent ∈ docEntries cfgL2 svcDown hashId cxDocB,
        ent.id ∈ r2.upserted) := by
  obtain ⟨h1, h2, -, ⟨h4a, h4b⟩, -, -, h7⟩ :=
    claimC10_amended (List.replicate 2 cxDocB) cfgL2 svcDown hashId okOracle
      okOracle none ⟨2, ["Bb", "Bb"], [1], 2⟩ 1 cxDocB
      (by decide) (by decide) (by decide) (fun f a => rfl) (by decide)
  exact ⟨h1, h2, h4a, h4b, h7⟩

end DmeSync
